import Mathlib

/-!
Verification development for `craigslist/craigslist.py`: a shallow embedding of
the module's price parser (`get_price`), extractor registry
(`ExtractorRegistry`), the three listing extractors
(`extract_item_for_sale`, `extract_job`, `extract_housing`) and the
pagination crawler (`get_posts_for_category`), together with theorems
settling the specification's claims about them.

Strings are modelled as Lean `String` / `List Char`; Python floats are
modelled as exact rationals (every value the parser can build is a finite
decimal); a raised Python exception is modelled as `Except.error ()`;
a Python value that may be `None` is an `Option`.
-/

/-- Python `str.strip` whitespace set (the ASCII whitespace characters). -/
def isSpaceCh (c : Char) : Bool :=
  c == ' ' || c == '\t' || c == '\n' || c == '\r' || c == '\x0b' || c == '\x0c'

/-- Python `s.strip()` on a list of characters. -/
def stripL (s : List Char) : List Char :=
  ((s.dropWhile isSpaceCh).reverse.dropWhile isSpaceCh).reverse

/-- `beginsWith pat s` is true when `pat` is an initial segment of `s`. -/
def beginsWith : List Char → List Char → Bool
  | [], _ => true
  | _ :: _, [] => false
  | p :: ps, c :: cs => p == c && beginsWith ps cs

/-- Python `pat in s` substring test. -/
def containsSub : List Char → List Char → Bool
  | [], pat => pat.isEmpty
  | c :: cs, pat => beginsWith pat (c :: cs) || containsSub cs pat

/-- Python `s.split(sep)` for a one-character separator `sep`. -/
def splitCh (sep : Char) : List Char → List (List Char)
  | [] => [[]]
  | c :: cs =>
    if c == sep then [] :: splitCh sep cs
    else
      match splitCh sep cs with
      | [] => [[c]]
      | t :: ts => (c :: t) :: ts

/-- Python `s.split(pat)[0]`: the segment before the first occurrence of
`pat` (the whole string when `pat` does not occur). -/
def takeBefore (pat : List Char) : List Char → List Char
  | [] => []
  | c :: cs => if beginsWith pat (c :: cs) then [] else c :: takeBefore pat cs

/-- Length of the maximal run of decimal digits at the front of `s`
(the Python regex `\d` on a byte/ascii pattern is `[0-9]`). -/
def digitRunLen : List Char → Nat
  | [] => 0
  | c :: cs => if c.isDigit then digitRunLen cs + 1 else 0

/-- Value of a (possibly empty) digit string read in base 10. -/
def natOfDigitsAux (acc : Nat) : List Char → Nat
  | [] => acc
  | c :: cs => natOfDigitsAux (acc * 10 + (c.toNat - 48)) cs

def natOfDigits (s : List Char) : Nat := natOfDigitsAux 0 s

/-- A nonnegative Python float written in decimal: its exact value is
`mantissa / 10 ^ shift`.  Every value `get_price` can build is such a finite
decimal, so this models the parsed floats exactly. -/
structure PyFloat where
  mantissa : Nat
  shift : Nat
deriving DecidableEq

/-- Numeric (Python `==`) equality of two such floats:
`a.mantissa / 10^a.shift = b.mantissa / 10^b.shift`, cross-multiplied. -/
def pyFloatEq (a b : PyFloat) : Prop :=
  a.mantissa * 10 ^ b.shift = b.mantissa * 10 ^ a.shift

instance (a b : PyFloat) : Decidable (pyFloatEq a b) := by
  unfold pyFloatEq; infer_instance

/-- Numeric (Python `<=`) comparison of two such floats. -/
def pyFloatLe (a b : PyFloat) : Prop :=
  a.mantissa * 10 ^ b.shift ≤ b.mantissa * 10 ^ a.shift

instance (a b : PyFloat) : Decidable (pyFloatLe a b) := by
  unfold pyFloatLe; infer_instance

/-- The float value of the integer `n`. -/
def pyFloatOfNat (n : Nat) : PyFloat := ⟨n, 0⟩

/-- Python `float(s)` restricted to the shapes `get_price` can produce
(`digits`, `digits.digits`, `.digits`, `digits.`): `none` models a raised
`ValueError` (in particular `float('')` raises). -/
def pyFloatP (s : List Char) : Option PyFloat :=
  let n := digitRunLen s
  let ip := s.take n
  match s.drop n with
  | [] => if n = 0 then none else some ⟨natOfDigits ip, 0⟩
  | '.' :: fr =>
    let m := digitRunLen fr
    if fr.drop m = [] then
      if n = 0 ∧ m = 0 then none
      else some ⟨natOfDigits ip * 10 ^ m + natOfDigits (fr.take m), m⟩
    else none
  | _ => none

/-- Python `int(s)`: strip whitespace, optional sign, nonempty digit string;
`none` models a raised `ValueError`. -/
def pyIntQm (s : List Char) : Option Int :=
  match stripL s with
  | [] => none
  | '+' :: ds => if ds ≠ [] ∧ ds.all Char.isDigit then some (natOfDigits ds) else none
  | '-' :: ds => if ds ≠ [] ∧ ds.all Char.isDigit then some (-(natOfDigits ds : Int)) else none
  | ds => if ds.all Char.isDigit then some (natOfDigits ds) else none

/-- `int(s)` with Python's `except ValueError: bedrooms = 0` fallback from
`extract_housing`. -/
def pyIntOr0 (s : List Char) : Int :=
  match pyIntQm s with
  | some k => k
  | none => 0

/-! ## The money regex of `get_price`

The pattern is `\$?(\d*\.\d{1,2})$|\$?(\d+)$|\$(\d+\.?)` searched
(leftmost position first, alternatives in order at each position) without
the MULTILINE flag, so the `$` anchor holds at the end of the text or just
before a final newline.  Each alternative is deterministic enough that the
backtracking matcher can be written as a direct function: an optional `\$`
must be taken when present (the following atom can never match a `'$'`),
`\d*`/`\d+` must run to the end of the digit run (the following atom is a
dot or the anchor, and a digit satisfies neither). -/

/-- The `$` end-of-text anchor applied to the rest of the input. -/
def endAnchor : List Char → Bool
  | [] => true
  | ['\n'] => true
  | _ => false

/-- `(\d*\.\d{1,2})$` at the front of `t1`, with `d` characters (the
optional `\$`) already consumed; returns the total length of the match. -/
def alt1core (t1 : List Char) (d : Nat) : Option Nat :=
  let n := digitRunLen t1
  match t1.drop n with
  | '.' :: a :: b :: t4 =>
    if a.isDigit && b.isDigit && endAnchor t4 then some (d + n + 3)
    else if a.isDigit && endAnchor (b :: t4) then some (d + n + 2)
    else none
  | ['.', a] => if a.isDigit then some (d + n + 2) else none
  | _ => none

/-- Alternative 1, `\$?(\d*\.\d{1,2})$`, at the front of `t`. -/
def alt1m (t : List Char) : Option Nat :=
  match t with
  | '$' :: t1 => alt1core t1 1
  | _ => alt1core t 0

/-- `(\d+)$` at the front of `t1`, with `d` characters already consumed. -/
def alt2core (t1 : List Char) (d : Nat) : Option Nat :=
  let n := digitRunLen t1
  if n == 0 then none
  else if endAnchor (t1.drop n) then some (d + n) else none

/-- Alternative 2, `\$?(\d+)$`, at the front of `t`. -/
def alt2m (t : List Char) : Option Nat :=
  match t with
  | '$' :: t1 => alt2core t1 1
  | _ => alt2core t 0

/-- Alternative 3, `\$(\d+\.?)`, at the front of `t`. -/
def alt3m (t : List Char) : Option Nat :=
  match t with
  | '$' :: t1 =>
    let n := digitRunLen t1
    if n == 0 then none
    else
      match t1.drop n with
      | '.' :: _ => some (1 + n + 1)
      | _ => some (1 + n)
  | _ => none

/-- The whole alternation at the front of `t` (alternatives in order). -/
def altAny (t : List Char) : Option Nat :=
  match alt1m t with
  | some k => some k
  | none =>
    match alt2m t with
    | some k => some k
    | none => alt3m t

/-- `re.search` of the money pattern: first matching position wins;
returns `group(0)` of the match. -/
def moneySearchList : List Char → Option (List Char)
  | [] => none
  | c :: cs =>
    match altAny (c :: cs) with
    | some k => some ((c :: cs).take k)
    | none => moneySearchList cs

/-- `craigslist.get_price`: search the money pattern; on a match return
`float(group(0)[1:])` — note the first character of the match is dropped
unconditionally, `'$'` or not; no match returns Python `None`
(`Except.ok none`); a `float` conversion failure raises
(`Except.error ()`). -/
def get_price (text : String) : Except Unit (Option PyFloat) :=
  match moneySearchList text.data with
  | none => Except.ok none
  | some m =>
    match pyFloatP (m.drop 1) with
    | none => Except.error ()
    | some q => Except.ok (some q)

instance {ε α : Type} [DecidableEq ε] [DecidableEq α] : DecidableEq (Except ε α) := by
  intro a b
  cases a <;> cases b
  case error.error x y =>
    exact if h : x = y then Decidable.isTrue (by rw [h])
      else Decidable.isFalse (fun hc => h (by injection hc))
  case error.ok x y => exact Decidable.isFalse (fun hc => Except.noConfusion hc)
  case ok.error x y => exact Decidable.isFalse (fun hc => Except.noConfusion hc)
  case ok.ok x y =>
    exact if h : x = y then Decidable.isTrue (by rw [h])
      else Decidable.isFalse (fun hc => h (by injection hc))

example : get_price "$50" = Except.ok (some ⟨50, 0⟩) := by decide
example : get_price "$100.00" = Except.ok (some ⟨10000, 2⟩) := by decide
example : pyFloatEq ⟨10000, 2⟩ (pyFloatOfNat 100) := by decide
example : get_price " $50 " = Except.ok (some ⟨50, 0⟩) := by decide
example : get_price "100" = Except.ok (some ⟨0, 0⟩) := by decide
example : get_price "5" = Except.error () := by decide
example : get_price "$0" = Except.ok (some ⟨0, 0⟩) := by decide
example : get_price "no price here" = Except.ok none := by decide
example : get_price "$1425 / 3br - 1492ft - Beautiful Home" = Except.ok (some ⟨1425, 0⟩) := by decide

/-! ## ExtractorRegistry

`self.extractors` is a dict from category code to extractor function,
modelled as an association list with Python-dict lookup/assignment. -/

abbrev RegState (F : Type) := List (String × F)

/-- Python `d.get(k, None)`. -/
def dictGet {F : Type} : RegState F → String → Option F
  | [], _ => none
  | (k, v) :: rest, key => if k = key then some v else dictGet rest key

/-- Python `d[k] = v`. -/
def dictSet {F : Type} : RegState F → String → F → RegState F
  | [], key, v => [(key, v)]
  | (k, w) :: rest, key, v =>
    if k = key then (key, v) :: rest else (k, w) :: dictSet rest key v

/-- `ExtractorRegistry.register(*args)(fn)`: walk the codes in order; a code
already present raises `ValueError` (duplicate category), leaving the dict
as mutated so far (the boolean result records whether the error was
raised); a fresh code is bound to `fn`. -/
def ExtractorRegistry.register {F : Type} : List String → F → RegState F → RegState F × Bool
  | [], _, st => (st, false)
  | c :: cs, fn, st =>
    match dictGet st c with
    | some _ => (st, true)
    | none => ExtractorRegistry.register cs fn (dictSet st c fn)

/-- `ExtractorRegistry.get(category)`: the bound function, else whatever is
bound to `'default'`, else Python `None` (no error is raised). -/
def ExtractorRegistry.get {F : Type} (st : RegState F) (category : String) : Option F :=
  match dictGet st category with
  | some f => some f
  | none => dictGet st "default"

example : (ExtractorRegistry.register ["a", "b"] (1 : Nat) []).2 = false := by decide
example : (ExtractorRegistry.register ["a"] (2 : Nat) [("a", 1)]).2 = true := by decide
example : ExtractorRegistry.get [("default", (7 : Nat))] "zzz" = some 7 := by decide

/-! ## Listing nodes and records

An extractor sees one listing node: its ordered children (each exposing its
text content and its `href` attribute) and the result of
`item.find('small')` (the text of the first `small` descendant, if any).
`isNewline` marks a child that is the bare text node `'\n'` (the crawler
filters those out before extraction).

A `ListingRecord` models the Python result dict: a field is `none` when the
key is absent from the dict; `link`/`price` wrap a further `Option` because
Python stores a possibly-`None` value under those keys. -/

structure Child where
  text : String := ""
  href : Option String := none
  isNewline : Bool := false
deriving DecidableEq

structure Item where
  contents : List Child := []
  small : Option String := none
deriving DecidableEq

structure ListingRecord where
  date : Option String := none
  link : Option (Option String) := none
  desc : Option String := none
  location : Option String := none
  image : Option Bool := none
  category : Option String := none
  price : Option (Option PyFloat) := none
  sqft : Option String := none
  bedrooms : Option Int := none
deriving DecidableEq

/-- Python `s.strip()`. -/
def pyStrip (s : String) : String := String.mk (stripL s.data)

/-- Python `s.replace('-', '')`. -/
def pyRemoveDashes (s : String) : String := String.mk (s.data.filter (fun c => c != '-'))

/-- `craigslist.extract_item_for_sale`: positional fields from children
1, 2, 5, 6; the category from child 7 with the `IndexError` recovered to
`''`; the price from `get_price` on child 4's text, stored only when
truthy (`if price:` — both `None` and `0.0` are falsy).  A missing child
other than 7 propagates the `IndexError` (`Except.error ()`), as does a
`ValueError` escaping `get_price`. -/
def extract_item_for_sale (item : Item) : Except Unit ListingRecord :=
  match item.contents.get? 1, item.contents.get? 2, item.contents.get? 5, item.contents.get? 6 with
  | some c1, some c2, some c5, some c6 =>
    let category : String :=
      match item.contents.get? 7 with
      | some c7 => c7.text
      | none => ""
    match item.contents.get? 4 with
    | some c4 =>
      match get_price c4.text with
      | Except.error e => Except.error e
      | Except.ok priceOpt =>
        let base : ListingRecord :=
          { date := some (pyStrip (pyRemoveDashes c1.text)),
            link := some c2.href,
            desc := some (pyStrip c2.text),
            location := some (pyStrip c5.text),
            image := some (c6.text != ""),
            category := some category }
        match priceOpt with
        | none => Except.ok base
        | some q =>
          if q.mantissa = 0 then Except.ok base
          else Except.ok { base with price := some (some q) }
    | none => Except.error ()
  | _, _, _, _ => Except.error ()

/-- `craigslist.extract_job`: positional fields from children 0..4; the
category from child 4 is overridden by the first `small` descendant's text
when one exists.  No positional lookup is protected: any missing child
aborts with `IndexError`. -/
def extract_job (item : Item) : Except Unit ListingRecord :=
  match item.contents.get? 0, item.contents.get? 1, item.contents.get? 2,
        item.contents.get? 3, item.contents.get? 4 with
  | some c0, some c1, some c2, some c3, some c4 =>
    let base : ListingRecord :=
      { date := some (pyStrip (pyRemoveDashes c0.text)),
        link := some c1.href,
        desc := some c1.text,
        location := some c2.text,
        image := some (c3.text != ""),
        category := some c4.text }
    match item.small with
    | some s => Except.ok { base with category := some s }
    | none => Except.ok base
  | _, _, _, _, _ => Except.error ()

/-- The `for detail in rental_details` loop of `extract_housing`: each
token is trimmed; a token containing `'ft'` is stored (trimmed) as
`sqft`; otherwise a token containing `'br'` stores as `bedrooms` the
`int` of the lower-cased text before the first `'br'`, with a
`ValueError` defaulting to 0. -/
def processDetails : List (List Char) → ListingRecord → ListingRecord
  | [], r => r
  | t :: ts, r =>
    let d := stripL t
    if containsSub d ['f', 't'] then
      processDetails ts { r with sqft := some (String.mk d) }
    else if containsSub d ['b', 'r'] then
      processDetails ts
        { r with bedrooms := some (pyIntOr0 (takeBefore ['b', 'r'] (d.map Char.toLower))) }
    else processDetails ts r

/-- `craigslist.extract_housing`: the description is child 1's trimmed
text; `result['price'] = get_price(desc)` is stored unconditionally (so
the price key is present even when the parse found nothing); when the raw
child-1 text contains `'/'`, the segment between the first and second
`'/'` is split on `'-'` and processed by `processDetails`; then link,
date, location and image come from children 1, 0, 2, 3, and the category
key is set only when a `small` descendant exists. -/
def extract_housing (item : Item) : Except Unit ListingRecord :=
  match item.contents.get? 1 with
  | none => Except.error ()
  | some c1 =>
    let desc := pyStrip c1.text
    match get_price desc with
    | Except.error e => Except.error e
    | Except.ok priceOpt =>
      let r0 : ListingRecord := { desc := some desc, price := some priceOpt }
      let r1 :=
        if containsSub c1.text.data ['/'] then
          processDetails (splitCh '-' ((splitCh '/' c1.text.data).getD 1 [])) r0
        else r0
      match item.contents.get? 0, item.contents.get? 2, item.contents.get? 3 with
      | some c0, some c2, some c3 =>
        Except.ok
          { r1 with
            link := some c1.href,
            date := some (pyStrip (pyRemoveDashes c0.text)),
            location := some (pyStrip c2.text),
            image := some (c3.text != ""),
            category := item.small }
      | _, _, _ => Except.error ()

/-! ## The module-level registry and the pagination crawler -/

abbrev Extractor := Item → Except Unit ListingRecord

/-- The registry as populated at import time by the three decorated
extractors, in source order. -/
def builtinRegistry : RegState Extractor :=
  let s1 := (ExtractorRegistry.register ["default", "sss"] extract_item_for_sale []).1
  let s2 := (ExtractorRegistry.register ["jjj", "ggg", "bbb"] extract_job s1).1
  (ExtractorRegistry.register ["hhh"] extract_housing s2).1

/-- One parsed search-result page, as the crawler sees it through the HTML
collaborator: the paragraph-level listing nodes of the second blockquote
container, in document order, and the href of the enclosing link of the
`'Next >>'` indicator when that indicator is present. -/
structure Page where
  posts : List Item := []
  next : Option String := none

/-- The crawler's per-listing cleanup: drop children that are the bare
newline text node or whose text is `'-'` (separator markup). -/
def cleanItem (item : Item) : Item :=
  { item with contents := item.contents.filter (fun c => !c.isNewline && c.text != "-") }

/-- One page of the crawl: resolve the extractor for `category` from the
registry (an unbound category with no default would make the loop call
`None`, a raised error) and run it over every post in document order; a
raised extraction error aborts the page. -/
def extractPage (category : String) (page : Page) : Except Unit (List ListingRecord) :=
  match ExtractorRegistry.get builtinRegistry category with
  | none => Except.error ()
  | some f => page.posts.mapM (fun el => f (cleanItem el))

/-- `craigslist.get_posts_for_category`, with the HTTP-and-parse
collaborator abstracted as `fetch : url → Page` and an explicit recursion
budget standing for Python's (unbounded) call stack: extract the current
page, then, when a next-page indicator exists, fetch and recursively crawl
its href with the same category and location, appending those results. -/
def get_posts_for_category (fetch : String → Page) :
    Nat → String → String → Page → Except Unit (List ListingRecord)
  | fuel + 1, category, location, page =>
    match extractPage category page with
    | Except.error e => Except.error e
    | Except.ok items =>
      match page.next with
      | none => Except.ok items
      | some url =>
        match get_posts_for_category fetch fuel category location (fetch url) with
        | Except.error e => Except.error e
        | Except.ok more => Except.ok (items ++ more)
  | 0, _, _, _ => Except.error ()

/-! ## Search filters

`src/` holds the snapshot of the module without the post-extraction
filtering; the spec documents it (§3 SearchFilters, §4.4), so the filter is
modelled from the spec and the filtering claims are settled against this
model. -/

structure SearchFilters where
  min_price : Option PyFloat := none
  max_price : Option PyFloat := none
  min_rooms : Option Int := none
  max_rooms : Option Int := none

/-- Modelled from the spec: the housing-record filter of §4.4 (code not
under `src/`): "drop the record when price is present and ≤ min_price, or
present and ≥ max_price, or when bedrooms is present and ≤ min_rooms or
≥ max_rooms (bounds exclusive on both ends by the literal comparison)".
A price is "present" when the record carries an actual parsed value. -/
def dropListing (f : SearchFilters) (r : ListingRecord) : Bool :=
  (match r.price, f.min_price with
   | some (some p), some m => decide (pyFloatLe p m)
   | _, _ => false) ||
  (match r.price, f.max_price with
   | some (some p), some m => decide (pyFloatLe m p)
   | _, _ => false) ||
  (match r.bedrooms, f.min_rooms with
   | some b, some m => decide (b ≤ m)
   | _, _ => false) ||
  (match r.bedrooms, f.max_rooms with
   | some b, some m => decide (m ≤ b)
   | _, _ => false)

/-- Modelled from the spec: records surviving the §4.4 filter, in order. -/
def applyHousingFilters (f : SearchFilters) (rs : List ListingRecord) : List ListingRecord :=
  rs.filter (fun r => !dropListing f r)

/-! ## Claim-side description of the housing details loop (for C6)

`specDetails` renders the spec's sentence: for each token of the details
segment, trimmed, a token containing `ft` is recorded verbatim as the
square-feet field; otherwise a token containing `br` yields the bedroom
count parsed from the lower-cased text before the `br`, defaulting to 0
when non-numeric; other tokens are ignored. -/

def specDetails : List (List Char) → Option String × Option Int → Option String × Option Int
  | [], acc => acc
  | t :: ts, acc =>
    let d := stripL t
    if containsSub d ['f', 't'] then specDetails ts (some (String.mk d), acc.2)
    else if containsSub d ['b', 'r'] then
      specDetails ts (acc.1, some (pyIntOr0 (takeBefore ['b', 'r'] (d.map Char.toLower))))
    else specDetails ts acc

/-! ## Helper lemmas about the registry dictionary -/

lemma dictGet_set_self {F : Type} (st : RegState F) (k : String) (v : F) :
    dictGet (dictSet st k v) k = some v := by
  induction st with
  | nil => simp [dictSet, dictGet]
  | cons p rest ih =>
    obtain ⟨a, b⟩ := p
    by_cases h : a = k
    · simp [dictSet, dictGet, h]
    · simp [dictSet, dictGet, h, ih]

lemma dictGet_set_ne {F : Type} (st : RegState F) (k x : String) (v : F) (h : k ≠ x) :
    dictGet (dictSet st k v) x = dictGet st x := by
  induction st with
  | nil => simp [dictSet, dictGet, h]
  | cons p rest ih =>
    obtain ⟨a, b⟩ := p
    by_cases h2 : a = k
    · subst h2; simp [dictSet, dictGet, h]
    · by_cases h3 : a = x
      · subst h3; simp [dictSet, dictGet, h2]
      · simp [dictSet, dictGet, h2, h3, ih]

/-- A binding already present survives any further `register` call: the
loop only inserts fresh keys and stops (with the dict as mutated so far)
at a duplicate. -/
lemma register_preserves {F : Type} (cats : List String) (fn : F) (x : String) (v : F) :
    ∀ st : RegState F, dictGet st x = some v →
      dictGet (ExtractorRegistry.register cats fn st).1 x = some v := by
  induction cats with
  | nil => intro st hx; simpa [ExtractorRegistry.register] using hx
  | cons c cs ih =>
    intro st hx
    cases hc : dictGet st c with
    | some f => simpa [ExtractorRegistry.register, hc] using hx
    | none =>
      have hcx : c ≠ x := by intro he; rw [he, hx] at hc; cases hc
      simp only [ExtractorRegistry.register, hc]
      exact ih (dictSet st c fn) (by rw [dictGet_set_ne st c x fn hcx]; exact hx)

/-- C4: for every registry state and every `register` call binding a
function to a list of category codes: if some code is already bound the
call raises the duplicate-category `ValueError` (result flag `true`);
otherwise (the codes being a set, i.e. without repetition) no error is
raised and every code ends up bound to the function. -/
theorem register_duplicate_or_binds_all {F : Type} (cats : List String) (fn : F) :
    ∀ st : RegState F,
      ((∃ c ∈ cats, (dictGet st c).isSome = true) →
        (ExtractorRegistry.register cats fn st).2 = true) ∧
      (cats.Nodup → (∀ c ∈ cats, dictGet st c = none) →
        (ExtractorRegistry.register cats fn st).2 = false ∧
        ∀ c ∈ cats, dictGet (ExtractorRegistry.register cats fn st).1 c = some fn) := by
  induction cats with
  | nil =>
    intro st
    refine ⟨?_, ?_⟩
    · rintro ⟨c, hc, -⟩; cases hc
    · intro _ _; exact ⟨rfl, by intro c hc; cases hc⟩
  | cons c cs ih =>
    intro st
    refine ⟨?_, ?_⟩
    · rintro ⟨x, hx, hsome⟩
      cases hc : dictGet st c with
      | some f => simp [ExtractorRegistry.register, hc]
      | none =>
        have hxc : x ≠ c := by intro he; rw [he, hc] at hsome; cases hsome
        have hxcs : x ∈ cs := by
          rcases List.mem_cons.mp hx with he | hm
          · exact absurd he hxc
          · exact hm
        simp only [ExtractorRegistry.register, hc]
        apply (ih (dictSet st c fn)).1
        refine ⟨x, hxcs, ?_⟩
        rw [dictGet_set_ne st c x fn (Ne.symm hxc)]
        exact hsome
    · intro hnodup hfresh
      have hc : dictGet st c = none := hfresh c (List.mem_cons_self c cs)
      simp only [ExtractorRegistry.register, hc]
      have hcs : ∀ x ∈ cs, dictGet (dictSet st c fn) x = none := by
        intro x hx
        have hcx : c ≠ x := by
          intro he; subst he; exact (List.nodup_cons.mp hnodup).1 hx
        rw [dictGet_set_ne st c x fn hcx]
        exact hfresh x (List.mem_cons_of_mem c hx)
      obtain ⟨hflag, hbound⟩ := (ih (dictSet st c fn)).2 (List.nodup_cons.mp hnodup).2 hcs
      refine ⟨hflag, ?_⟩
      intro x hx
      rcases List.mem_cons.mp hx with he | hxs
      · subst he
        exact register_preserves cs fn x fn (dictSet st x fn) (dictGet_set_self st x fn)
      · exact hbound x hxs

/-- Witness for C4 at concrete inputs: registering `["a", "b"]` in an
empty registry raises nothing and binds both codes; registering `["a"]`
when `"a"` is already bound raises the duplicate error. -/
theorem register_duplicate_or_binds_all_witness :
    (ExtractorRegistry.register ["a", "b"] (1 : Nat) []).2 = false ∧
    dictGet (ExtractorRegistry.register ["a", "b"] (1 : Nat) []).1 "a" = some 1 ∧
    dictGet (ExtractorRegistry.register ["a", "b"] (1 : Nat) []).1 "b" = some 1 ∧
    (ExtractorRegistry.register ["a"] (2 : Nat) [("a", 1)]).2 = true := by
  have h := (register_duplicate_or_binds_all ["a", "b"] (1 : Nat) []).2 (by decide)
    (by intro c _; rfl)
  have h2 := (register_duplicate_or_binds_all ["a"] (2 : Nat) [("a", 1)]).1
    ⟨"a", by decide, by decide⟩
  exact ⟨h.1, h.2 "a" (by decide), h.2 "b" (by decide), h2⟩

/-- C10: registration is not atomic on error.  If `register` is called
with codes `pre ++ c :: rest` where the codes in `pre` are fresh and
distinct and `c` is (or becomes, being among `pre`) already bound, then
the duplicate error is raised, and nevertheless every code of `pre` has
been bound to the function and remains bound in the resulting state. -/
theorem register_partial_mutation {F : Type} (pre : List String) (c : String)
    (rest : List String) (fn : F) :
    ∀ st : RegState F,
      (∀ x ∈ pre, dictGet st x = none) → pre.Nodup →
      ((dictGet st c).isSome = true ∨ c ∈ pre) →
      (ExtractorRegistry.register (pre ++ c :: rest) fn st).2 = true ∧
      ∀ x ∈ pre, dictGet (ExtractorRegistry.register (pre ++ c :: rest) fn st).1 x = some fn := by
  induction pre with
  | nil =>
    intro st _ _ hdup
    rcases hdup with hsome | hmem
    · cases hc : dictGet st c with
      | some f =>
        refine ⟨?_, ?_⟩
        · simp [ExtractorRegistry.register, hc]
        · intro x hx; cases hx
      | none => rw [hc] at hsome; cases hsome
    · cases hmem
  | cons p ps ih =>
    intro st hfresh hnodup hdup
    have hp : dictGet st p = none := hfresh p (List.mem_cons_self p ps)
    simp only [List.cons_append, ExtractorRegistry.register, hp]
    have hfresh2 : ∀ x ∈ ps, dictGet (dictSet st p fn) x = none := by
      intro x hx
      have hpx : p ≠ x := fun he => (List.nodup_cons.mp hnodup).1 (he ▸ hx)
      rw [dictGet_set_ne st p x fn hpx]
      exact hfresh x (List.mem_cons_of_mem p hx)
    have hdup2 : (dictGet (dictSet st p fn) c).isSome = true ∨ c ∈ ps := by
      by_cases hcp : c = p
      · left; subst hcp; rw [dictGet_set_self]; rfl
      · rcases hdup with hsome | hmem
        · left
          rw [dictGet_set_ne st p c fn (fun he => hcp he.symm)]
          exact hsome
        · rcases List.mem_cons.mp hmem with he | hm
          · exact absurd he hcp
          · right; exact hm
    obtain ⟨hflag, hbound⟩ := ih (dictSet st p fn) hfresh2 (List.nodup_cons.mp hnodup).2 hdup2
    refine ⟨hflag, ?_⟩
    intro x hx
    rcases List.mem_cons.mp hx with he | hxs
    · subst he
      exact register_preserves (ps ++ c :: rest) fn x fn (dictSet st x fn)
        (dictGet_set_self st x fn)
    · exact hbound x hxs

/-- Witness for C10 at a concrete input: registering `["a", "b"]` when
`"b"` is already bound raises the duplicate error, yet `"a"` (processed
before the duplicate) is bound in the resulting state. -/
theorem register_partial_mutation_witness :
    (ExtractorRegistry.register ["a", "b"] (5 : Nat) [("b", 9)]).2 = true ∧
    dictGet (ExtractorRegistry.register ["a", "b"] (5 : Nat) [("b", 9)]).1 "a" = some 5 := by
  have h := register_partial_mutation ["a"] "b" [] (5 : Nat) [("b", 9)]
    (by intro x hx; rw [List.mem_singleton] at hx; subst hx; decide)
    (by decide) (Or.inl (by decide))
  exact ⟨h.1, h.2 "a" (by decide)⟩

/-- C1: evaluation of `get_price` on the four claimed shapes with n = 500.
The three `'$'`-prefixed shapes do return the float value of 500, but the
bare-integer shape does not: the code strips the FIRST CHARACTER of the
match unconditionally (`price[1:]`), not just a currency symbol, so
`"500"` yields `float("00") = 0.0` and the single-digit `"5"` raises
`ValueError` (`float('')`).  This contradicts the claim (and the module's
own pattern comment advertising `500, 5` as recognized forms); the spec
states the clear intent, the code has the slip. -/
theorem get_price_bare_integer_eval :
    get_price "$500" = Except.ok (some ⟨500, 0⟩) ∧
    get_price "$500.00" = Except.ok (some ⟨50000, 2⟩) ∧
    pyFloatEq ⟨50000, 2⟩ (pyFloatOfNat 500) ∧
    get_price " $500 " = Except.ok (some ⟨500, 0⟩) ∧
    get_price "500" = Except.ok (some ⟨0, 0⟩) ∧
    get_price "5" = Except.error () := by
  decide

/-- C2 counterexample: the parser does return a price of 0.0 — the input
`"$0"` structurally matches (`\d+` is satisfied by the single digit `0`)
and converts to the float 0.0, refuting "for every input text, the parser
never returns a price of 0.0". -/
theorem get_price_zero_counterexample :
    get_price "$0" = Except.ok (some ⟨0, 0⟩) ∧ pyFloatEq ⟨0, 0⟩ (pyFloatOfNat 0) := by
  decide

/-- C2 as amended: `get_price` returns absent (Python `None`, not zero)
exactly when no alternative of the money pattern matches anywhere in the
text; it is however not true that it can never return 0.0 (see the
counterexample `"$0"`, and bare integers whose first digit is stripped). -/
theorem get_price_absent_iff (text : String) :
    get_price text = Except.ok none ↔ moneySearchList text.data = none := by
  cases h : moneySearchList text.data with
  | none => simp [get_price, h]
  | some m => cases h2 : pyFloatP m.tail <;> simp [get_price, h, h2]

/-- Witness for C2's amended theorem: a text with no match returns
absent. -/
theorem get_price_absent_iff_witness : get_price "free stuff" = Except.ok none :=
  (get_price_absent_iff "free stuff").mpr (by decide)

/-- C3 counterexample: with neither the category nor `"default"` bound
(empty registry), `get` returns the non-error sentinel `None` — no
`NoDefaultExtractorError` exists in the code and nothing is raised,
refuting the claim's error clause. -/
theorem registry_get_unbound_counterexample :
    ExtractorRegistry.get ([] : RegState Nat) "xyz" = none := rfl

/-- C3 as amended: `get` returns the function bound to the category when
one is bound, and otherwise whatever `"default"` maps to — which is the
sentinel `None`, not an error, when `"default"` is unbound too. -/
theorem registry_get_fallback {F : Type} (st : RegState F) (c : String) :
    (∀ f, dictGet st c = some f → ExtractorRegistry.get st c = some f) ∧
    (dictGet st c = none → ExtractorRegistry.get st c = dictGet st "default") := by
  refine ⟨?_, ?_⟩
  · intro f h; simp [ExtractorRegistry.get, h]
  · intro h; simp [ExtractorRegistry.get, h]

/-- Witness for C3's amended theorem: an unbound code falls back to the
`"default"` binding. -/
theorem registry_get_fallback_witness :
    ExtractorRegistry.get [("default", (7 : Nat))] "xyz" = some 7 := by
  have h := (registry_get_fallback [("default", (7 : Nat))] "xyz").2 rfl
  rw [h]; decide

/-! ## The extractor claims (C5, C6, C9) -/

/-- C5 counterexample: it is not true that every extraction strategy
recovers a failed positional child lookup — the job extractor has no
recovery at all, so a job node with no children aborts with the
`IndexError` instead of substituting empty values. -/
theorem extract_job_empty_counterexample :
    extract_job { contents := [], small := none } = Except.error () := rfl

/-- C5 as amended: only the for-sale extractor's category lookup
(child 7) recovers a failed positional lookup, substituting the empty
string.  A for-sale node with exactly 7 children (so children 1–6 exist
but the 8th does not) extracts successfully — provided the price parse
itself returns rather than raises — and yields `category = ""`. -/
theorem forsale_missing_eighth_child (c0 c1 c2 c3 c4 c5 c6 : Child) (sm : Option String)
    (pv : Option PyFloat) (hp : get_price c4.text = Except.ok pv) :
    extract_item_for_sale { contents := [c0, c1, c2, c3, c4, c5, c6], small := sm } =
      Except.ok
        { date := some (pyStrip (pyRemoveDashes c1.text)),
          link := some c2.href,
          desc := some (pyStrip c2.text),
          location := some (pyStrip c5.text),
          image := some (c6.text != ""),
          category := some "",
          price := match pv with
                   | some q => if q.mantissa = 0 then none else some (some q)
                   | none => none } := by
  have e1 : ({ contents := [c0, c1, c2, c3, c4, c5, c6], small := sm } : Item).contents.get? 1
      = some c1 := rfl
  have e2 : ({ contents := [c0, c1, c2, c3, c4, c5, c6], small := sm } : Item).contents.get? 2
      = some c2 := rfl
  have e4 : ({ contents := [c0, c1, c2, c3, c4, c5, c6], small := sm } : Item).contents.get? 4
      = some c4 := rfl
  have e5 : ({ contents := [c0, c1, c2, c3, c4, c5, c6], small := sm } : Item).contents.get? 5
      = some c5 := rfl
  have e6 : ({ contents := [c0, c1, c2, c3, c4, c5, c6], small := sm } : Item).contents.get? 6
      = some c6 := rfl
  have e7 : ({ contents := [c0, c1, c2, c3, c4, c5, c6], small := sm } : Item).contents.get? 7
      = none := rfl
  cases pv with
  | none => simp [extract_item_for_sale, e1, e2, e4, e5, e6, e7, hp]
  | some q =>
    by_cases hq : q.mantissa = 0 <;>
      simp [extract_item_for_sale, e1, e2, e4, e5, e6, e7, hp, hq]

def exSaleMissingItem : Item :=
  { contents := [{ text := "z" }, { text := "Jun 7" },
                 { text := "laptop", href := some "l1" }, { text := "z" },
                 { text := "$10" }, { text := "(Kelso)" }, { text := "" }],
    small := none }

/-- Witness for C5's amended theorem at a concrete 7-child node. -/
theorem forsale_missing_eighth_child_witness :
    extract_item_for_sale exSaleMissingItem = Except.ok
      { date := some "Jun 7", link := some (some "l1"), desc := some "laptop",
        location := some "(Kelso)", image := some false, category := some "",
        price := some (some ⟨10, 0⟩) } := by
  have h := forsale_missing_eighth_child { text := "z" } { text := "Jun 7" }
    { text := "laptop", href := some "l1" } { text := "z" } { text := "$10" }
    { text := "(Kelso)" } { text := "" } none (some ⟨10, 0⟩) (by decide)
  exact h.trans (by decide)

/-- The code's details loop agrees with the spec-side `specDetails` on the
square-feet and bedrooms fields, and touches no other field. -/
lemma processDetails_spec (ts : List (List Char)) :
    ∀ r : ListingRecord,
      ((processDetails ts r).sqft, (processDetails ts r).bedrooms)
          = specDetails ts (r.sqft, r.bedrooms) ∧
      (processDetails ts r).price = r.price ∧
      (processDetails ts r).desc = r.desc := by
  induction ts with
  | nil => intro r; exact ⟨rfl, rfl, rfl⟩
  | cons t ts ih =>
    intro r
    by_cases h1 : containsSub (stripL t) ['f', 't'] = true
    · simpa [processDetails, specDetails, h1] using ih { r with sqft := some (String.mk (stripL t)) }
    · by_cases h2 : containsSub (stripL t) ['b', 'r'] = true
      · simpa [processDetails, specDetails, h1, h2] using
          ih { r with bedrooms := some (pyIntOr0 (takeBefore ['b', 'r'] ((stripL t).map Char.toLower))) }
      · simpa [processDetails, specDetails, h1, h2] using ih r

/-- C6: for a housing node whose raw child-1 text contains `'/'` and whose
trimmed text parses to `pv`, extraction succeeds and produces exactly the
record whose price is the (unconditionally stored) parse result and whose
square-feet/bedrooms fields are those described by the spec's per-token
rules (`specDetails`) applied to the `'-'`-split of the segment after the
first `'/'`: a trimmed token containing `ft` is recorded verbatim as
square feet; otherwise one containing `br` yields the bedroom count
parsed (lower-cased, text before the `br`, defaulting to 0) — last
matching token winning, tokens matching neither ignored. -/
theorem housing_details_tokens (c0 c1 c2 c3 : Child) (sm : Option String) (pv : Option PyFloat)
    (hp : get_price (pyStrip c1.text) = Except.ok pv)
    (hs : containsSub c1.text.data ['/'] = true) :
    extract_housing { contents := [c0, c1, c2, c3], small := sm } =
      Except.ok
        { date := some (pyStrip (pyRemoveDashes c0.text)),
          link := some c1.href,
          desc := some (pyStrip c1.text),
          location := some (pyStrip c2.text),
          image := some (c3.text != ""),
          category := sm,
          price := some pv,
          sqft := (specDetails (splitCh '-' ((splitCh '/' c1.text.data).getD 1 []))
                    (none, none)).1,
          bedrooms := (specDetails (splitCh '-' ((splitCh '/' c1.text.data).getD 1 []))
                        (none, none)).2 } := by
  have e0 : ({ contents := [c0, c1, c2, c3], small := sm } : Item).contents.get? 0
      = some c0 := rfl
  have e1 : ({ contents := [c0, c1, c2, c3], small := sm } : Item).contents.get? 1
      = some c1 := rfl
  have e2 : ({ contents := [c0, c1, c2, c3], small := sm } : Item).contents.get? 2
      = some c2 := rfl
  have e3 : ({ contents := [c0, c1, c2, c3], small := sm } : Item).contents.get? 3
      = some c3 := rfl
  have hd := processDetails_spec (splitCh '-' ((splitCh '/' c1.text.data).getD 1 []))
    { desc := some (pyStrip c1.text), price := some pv }
  obtain ⟨hsq, hpr, hde⟩ := hd
  have hsq1 := congrArg Prod.fst hsq
  have hsq2 := congrArg Prod.snd hsq
  simp only [extract_housing, e0, e1, e2, e3, hp, hs, if_true]
  simp only [Except.ok.injEq]
  refine ListingRecord.mk.injEq .. |>.mpr ?_
  exact ⟨rfl, rfl, by simpa using hde, rfl, rfl, rfl, by simpa using hpr,
    by simpa using hsq1, by simpa using hsq2⟩

def exHousingC1 : Child :=
  { text := "$295000 / 4br - 2594ft² - Beautiful 4 Bedroom With Hardwoods",
    href := some "http://example.org/post" }

def exHousingItem : Item :=
  { contents := [{ text := "Jun 7" }, exHousingC1, { text := "(Tigard)" }, { text := "pic" }],
    small := some "real estate - by broker" }

def exHousingRecord : ListingRecord :=
  { date := some "Jun 7", link := some (some "http://example.org/post"),
    desc := some "$295000 / 4br - 2594ft² - Beautiful 4 Bedroom With Hardwoods",
    location := some "(Tigard)", image := some true,
    category := some "real estate - by broker",
    price := some (some ⟨295000, 0⟩), sqft := some "2594ft²", bedrooms := some 4 }

/-- Witness for C6 at the spec's own example description: yields price
295000.0, bedrooms 4 and square feet `"2594ft²"`. -/
theorem housing_details_tokens_witness :
    extract_housing exHousingItem = Except.ok exHousingRecord ∧
    exHousingRecord.price = some (some ⟨295000, 0⟩) ∧
    pyFloatEq ⟨295000, 0⟩ (pyFloatOfNat 295000) ∧
    exHousingRecord.bedrooms = some 4 ∧
    exHousingRecord.sqft = some "2594ft²" := by
  have h := housing_details_tokens { text := "Jun 7" } exHousingC1 { text := "(Tigard)" }
    { text := "pic" } (some "real estate - by broker") (some ⟨295000, 0⟩)
    (by decide) (by decide)
  exact ⟨h.trans (by decide), by decide, by decide, by decide, by decide⟩

/-- Projection of an extraction result onto the price field of the record
dict (distinguishing a raised error, an absent key, a key holding `None`,
and a key holding a float). -/
def priceField (e : Except Unit ListingRecord) : Option (Option (Option PyFloat)) :=
  match e with
  | Except.ok r => some r.price
  | Except.error _ => none

def exNoPriceItem : Item :=
  { contents := [{ text := "Jun 8" }, { text := "cozy cottage", href := some "u" },
                 { text := "(King)" }, { text := "" }],
    small := none }

/-- C9 counterexample: the housing extractor stores the price key
unconditionally (`result['price'] = get_price(...)`), so a housing node
whose description holds no parseable price produces a record in which the
price key is PRESENT WITH a null value — refuting "absent (not present
with a null value) whenever not determinable". -/
theorem housing_price_null_counterexample :
    priceField (extract_housing exNoPriceItem) = some (some none) := by decide

/-- C9 as amended: in for-sale records bedrooms/square-feet are never set
and the price key is never present-with-null — it carries a value only
when `get_price` on child 4's text found a truthy (nonzero) one; job
records set none of the three; housing records, however, always carry the
price key, holding exactly the (possibly `None`) result of `get_price` on
the trimmed description. -/
theorem optional_fields_presence (item : Item) (r : ListingRecord) :
    (extract_item_for_sale item = Except.ok r →
      r.bedrooms = none ∧ r.sqft = none ∧ r.price ≠ some none ∧
      ∀ q, r.price = some (some q) → q.mantissa ≠ 0 ∧
        ∃ c4, item.contents.get? 4 = some c4 ∧ get_price c4.text = Except.ok (some q)) ∧
    (extract_job item = Except.ok r → r.price = none ∧ r.bedrooms = none ∧ r.sqft = none) ∧
    (extract_housing item = Except.ok r →
      ∃ c1, item.contents.get? 1 = some c1 ∧
        ∃ pv, get_price (pyStrip c1.text) = Except.ok pv ∧ r.price = some pv) := by
  refine ⟨?_, ?_, ?_⟩
  · intro h
    unfold extract_item_for_sale at h
    split at h
    · cases h4 : item.contents.get? 4 with
      | none => simp only [h4] at h; exact absurd h (by simp)
      | some c4 =>
        cases hgp : get_price c4.text with
        | error e => simp only [h4, hgp] at h; exact absurd h (by simp)
        | ok priceOpt =>
          cases priceOpt with
          | none =>
            simp only [h4, hgp] at h
            injection h with hr
            subst hr
            refine ⟨rfl, rfl, by simp, ?_⟩
            intro q hq2
            exact absurd hq2 (by simp)
          | some q =>
            by_cases hq : q.mantissa = 0
            · simp only [h4, hgp] at h
              rw [if_pos hq] at h
              injection h with hr
              subst hr
              refine ⟨rfl, rfl, by simp, ?_⟩
              intro q2 hq2
              exact absurd hq2 (by simp)
            · simp only [h4, hgp] at h
              rw [if_neg hq] at h
              injection h with hr
              subst hr
              refine ⟨rfl, rfl, by simp, ?_⟩
              intro q2 hq2
              have hqq : q = q2 := by simpa using hq2
              subst hqq
              exact ⟨hq, c4, rfl, hgp⟩
    · exact absurd h (by simp)
  · intro h
    unfold extract_job at h
    split at h
    · cases hs : item.small with
      | some s =>
        simp only [hs] at h
        injection h with hr
        subst hr
        exact ⟨rfl, rfl, rfl⟩
      | none =>
        simp only [hs] at h
        injection h with hr
        subst hr
        exact ⟨rfl, rfl, rfl⟩
    · exact absurd h (by simp)
  · intro h
    unfold extract_housing at h
    cases hc1 : item.contents.get? 1 with
    | none => simp only [hc1] at h; exact absurd h (by simp)
    | some c1 =>
      cases hgp : get_price (pyStrip c1.text) with
      | error e => simp only [hc1, hgp] at h; exact absurd h (by simp)
      | ok priceOpt =>
        refine ⟨c1, rfl, priceOpt, hgp, ?_⟩
        simp only [hc1, hgp] at h
        split at h
        · injection h with hr
          subst hr
          by_cases hsl : containsSub c1.text.data ['/'] = true
          · have hpp := (processDetails_spec (splitCh '-' ((splitCh '/' c1.text.data).getD 1 []))
              { desc := some (pyStrip c1.text), price := some priceOpt }).2.1
            simpa [hsl] using hpp
          · simp [hsl]
        · exact absurd h (by simp)

def exNoPriceRecord : ListingRecord :=
  { date := some "Jun 8", link := some (some "u"), desc := some "cozy cottage",
    location := some "(King)", image := some false, category := none,
    price := some none }

/-- Witness for C9's amended theorem at a concrete housing node with no
parseable price: extraction succeeds and the record's price key is
present, holding null. -/
theorem optional_fields_presence_witness :
    extract_housing exNoPriceItem = Except.ok exNoPriceRecord ∧
    exNoPriceRecord.price = some none := by
  have h := (optional_fields_presence exNoPriceItem exNoPriceRecord).2.2 (by decide)
  obtain ⟨c1, hc1, pv, hpv, hpr⟩ := h
  have hc1e : (some ({ text := "cozy cottage", href := some "u" } : Child) : Option Child)
      = some c1 := Eq.trans rfl hc1
  injection hc1e with hc1e
  subst hc1e
  have hpv2 : Except.ok (none : Option PyFloat) = Except.ok pv :=
    Eq.trans (by decide :
      Except.ok (none : Option PyFloat)
        = get_price (pyStrip ({ text := "cozy cottage", href := some "u" } : Child).text)) hpv
  injection hpv2 with hpv2
  subst hpv2
  exact ⟨by decide, hpr⟩

/-! ## The filtering claim (C7) and the pagination claim (C8) -/

/-- C7: the §4.4 filter (modelled from the spec — the snapshot under
`src/` takes no filters) drops a housing record exactly when its price is
present and ≤ min_price or ≥ max_price, or its bedroom count is present
and ≤ min_rooms or ≥ max_rooms — bounds exclusive on both ends; in
particular a record with price 500 under max_price 500 is dropped while
one with price 499 is kept. -/
theorem housing_filter_bounds (f : SearchFilters) (r : ListingRecord) :
    (dropListing f r = true ↔
      (∃ p, r.price = some (some p) ∧
        ((∃ m, f.min_price = some m ∧ pyFloatLe p m) ∨
         (∃ m, f.max_price = some m ∧ pyFloatLe m p))) ∨
      (∃ b, r.bedrooms = some b ∧
        ((∃ m, f.min_rooms = some m ∧ b ≤ m) ∨
         (∃ m, f.max_rooms = some m ∧ m ≤ b)))) ∧
    applyHousingFilters { max_price := some (pyFloatOfNat 500) }
        [{ price := some (some (pyFloatOfNat 500)) }] = [] ∧
    applyHousingFilters { max_price := some (pyFloatOfNat 500) }
        [{ price := some (some (pyFloatOfNat 499)) }]
      = [{ price := some (some (pyFloatOfNat 499)) }] := by
  refine ⟨?_, by decide, by decide⟩
  obtain ⟨mnp, mxp, mnr, mxr⟩ := f
  obtain ⟨d, l, de, lo, im, ca, pr, sq, bd⟩ := r
  rcases pr with _ | ⟨_ | p⟩ <;> rcases bd with _ | b <;>
    rcases mnp with _ | mnp <;> rcases mxp with _ | mxp <;>
    rcases mnr with _ | mnr <;> rcases mxr with _ | mxr <;>
    simp [dropListing] <;> tauto

/-- Witness for C7 at the spec's concrete bound case. -/
theorem housing_filter_bounds_witness :
    applyHousingFilters { max_price := some (pyFloatOfNat 500) }
        [{ price := some (some (pyFloatOfNat 500)) }] = [] :=
  (housing_filter_bounds { max_price := some (pyFloatOfNat 500) }
    { price := some (some (pyFloatOfNat 500)) }).2.1

/-- C8: one unfolding of the crawl (the recursion budget `fuel + 1`
stands for Python's call stack, which the source does not bound): when the
page holds a next-page indicator with href `url`, the result is the
current page's records (extracted in document order by `extractPage`)
immediately followed by the records of recursively crawling `fetch url`
with the same category and location; when there is no indicator, the
result is the current page's records alone. -/
theorem crawl_pagination (fetch : String → Page) (fuel : Nat)
    (category location : String) (page : Page) :
    (∀ url items more, page.next = some url →
      extractPage category page = Except.ok items →
      get_posts_for_category fetch fuel category location (fetch url) = Except.ok more →
      get_posts_for_category fetch (fuel + 1) category location page
        = Except.ok (items ++ more)) ∧
    (page.next = none →
      get_posts_for_category fetch (fuel + 1) category location page
        = extractPage category page) := by
  refine ⟨?_, ?_⟩
  · intro url items more hn he hr
    simp [get_posts_for_category, he, hn, hr]
  · intro hn
    cases he : extractPage category page <;> simp [get_posts_for_category, hn, he]

def exP1Item : Item :=
  { contents := [{ text := "z" }, { text := "Jun 7" },
                 { text := "thing one", href := some "l1" }, { text := "z" },
                 { text := "$10" }, { text := "(P1)" }, { text := "" }, { text := "cat1" }],
    small := none }

def exP2Item : Item :=
  { contents := [{ text := "z" }, { text := "Jun 8" },
                 { text := "thing two", href := some "l2" }, { text := "z" },
                 { text := "$20" }, { text := "(P2)" }, { text := "pic" }, { text := "cat2" }],
    small := none }

def exRec1 : ListingRecord :=
  { date := some "Jun 7", link := some (some "l1"), desc := some "thing one",
    location := some "(P1)", image := some false, category := some "cat1",
    price := some (some ⟨10, 0⟩) }

def exRec2 : ListingRecord :=
  { date := some "Jun 8", link := some (some "l2"), desc := some "thing two",
    location := some "(P2)", image := some true, category := some "cat2",
    price := some (some ⟨20, 0⟩) }

def exPage2 : Page := { posts := [exP2Item], next := none }

def exPage1 : Page := { posts := [exP1Item], next := some "page2" }

def exFetch : String → Page := fun _ => exPage2

/-- Witness for C8 on a concrete two-page fixture: the crawl returns the
page-1 record immediately followed by the page-2 record. -/
theorem crawl_pagination_witness :
    get_posts_for_category exFetch 2 "sss" "portland" exPage1 = Except.ok [exRec1, exRec2] := by
  have h := (crawl_pagination exFetch 1 "sss" "portland" exPage1).1 "page2"
    [exRec1] [exRec2] rfl (by decide) (by decide)
  exact h
